import Mathlib

/-!
Verification development for the cbrotli streaming decompressor
(`go/cbrotli/reader.go`).

The decode engine (the C brotli library) and the input source (an
`io.Reader`) are external collaborators: they are modelled as abstract
operation records (`EngineOps`, `SourceOps`) over caller-chosen state
types.  The streaming adaptation layer itself — the `Reader` struct, its
`Read` loop, `Close`, the constructors, and the one-shot `Decode` path —
is embedded faithfully from the Go source.  An explicit event trace
records engine invocations, source reads, decoder-state destruction and
dictionary unpinning, so that claims about "does not invoke the engine",
"destroyed exactly once" and similar are directly statable.
-/

/-- Result of `BrotliDecoderDecompressStream` (`BrotliDecoderResult`). -/
inductive DecoderResult : Type
  | success          -- BROTLI_DECODER_RESULT_SUCCESS
  | error            -- BROTLI_DECODER_RESULT_ERROR
  | needsMoreOutput  -- BROTLI_DECODER_RESULT_NEEDS_MORE_OUTPUT
  | needsMoreInput   -- BROTLI_DECODER_RESULT_NEEDS_MORE_INPUT
  deriving DecidableEq, Repr

/-- Go error values appearing in `reader.go`: the sentinel errors of the
package, the `io` errors it returns, the engine error wrapper
`decodeError`, and an opaque tag for errors produced by the Source. -/
inductive GoErr : Type
  | eof                  -- io.EOF
  | unexpectedEOF        -- io.ErrUnexpectedEOF
  | shortBuffer          -- io.ErrShortBuffer
  | excessiveInput       -- errExcessiveInput
  | invalidState         -- errInvalidState
  | readerClosed         -- errReaderClosed
  | decodeErr (code : Int)  -- decodeError(BrotliDecoderGetErrorCode(state))
  | srcErr (tag : Nat)      -- some other error coming from the Source
  deriving DecidableEq, Repr

/-- A Go `error` value: `none` is Go's `nil`. -/
abbrev GoError : Type := Option GoErr

/-- Result record of one `DecompressStream` call: the engine state
afterwards, the bytes written into the output buffer, the number of input
bytes consumed, and the `BrotliDecoderResult`. -/
structure DecompOut (σ : Type) : Type where
  s : σ
  out : List Nat
  consumed : Nat
  result : DecoderResult
  deriving DecidableEq, Repr

/-- The decode engine as consumed by `reader.go`: an opaque state machine
(the C brotli decoder).  `decompress s outCap input` is the
`DecompressStream` wrapper (which reports bytes written and consumed);
`hasMoreOutput` is `BrotliDecoderHasMoreOutput`, `isFinished` is
`BrotliDecoderIsFinished`, `errorCode` is `BrotliDecoderGetErrorCode`,
and `attach` is `BrotliDecoderAttachDictionary`, returning the engine
state and the `BROTLI_BOOL` success flag. -/
structure EngineOps (σ : Type) : Type where
  hasMoreOutput : σ → Bool
  isFinished : σ → Bool
  decompress : σ → Nat → List Nat → DecompOut σ
  errorCode : σ → Int
  attach : σ → List Nat → σ × Bool

/-- Result record of one Source read (`io.Reader.Read` into a buffer of a
given capacity): updated source state, bytes obtained, and error. -/
structure SrcOut (τ : Type) : Type where
  src : τ
  chunk : List Nat
  err : GoError
  deriving DecidableEq, Repr

/-- The underlying `io.Reader` the `Reader` pulls compressed bytes from. -/
structure SourceOps (τ : Type) : Type where
  read : τ → Nat → SrcOut τ

/-- Observable effects of the adaptation layer, recorded in order:
a Source read (bytes obtained and error), a `DecompressStream` call
(bytes written and consumed), `BrotliDecoderDestroyInstance`, and
`runtime.Pinner.Unpin`. -/
inductive Event : Type
  | srcRead (m : Nat) (err : GoError)
  | engineCall (written consumed : Nat)
  | destroy
  | unpin
  deriving DecidableEq, Repr

/-- Bytes a recorded engine call reported written; 0 for other events. -/
def Event.written : Event → Nat
  | .engineCall w _ => w
  | _ => 0

/-- Total bytes the engine wrote into the caller's buffer over a trace. -/
def totalWritten (evs : List Event) : Nat :=
  (evs.map Event.written).sum

/-- Number of `DecompressStream` invocations in a trace. -/
def engineCalls (evs : List Event) : Nat :=
  evs.countP fun e => match e with | .engineCall _ _ => true | _ => false

/-- Number of `BrotliDecoderDestroyInstance` calls in a trace. -/
def countDestroy (evs : List Event) : Nat :=
  evs.countP fun e => match e with | .destroy => true | _ => false

/-- The `Reader` struct of `reader.go`.  `state = none` models
`r.state == nil` (the closed reader); `bufCap` is `len(r.buf)`; `input`
is the pending input slice `r.in` (its bytes); `pinner` records whether a
raw-dictionary pinner is held (`r.pinner != nil`). -/
structure RState (σ τ : Type) : Type where
  src : τ
  state : Option σ
  bufCap : Nat
  input : List Nat
  pinner : Bool
  deriving DecidableEq, Repr

/-- readBufSize from `reader.go` (32 * 1024). -/
def readBufSize : Nat := 32 * 1024

/-- Result record of `Reader.Read`: count, error, the bytes written into
the caller's buffer, the reader afterwards, and the event trace. -/
structure ReadRes (σ τ : Type) : Type where
  n : Nat
  err : GoError
  out : List Nat
  r : RState σ τ
  evs : List Event
  deriving DecidableEq, Repr

/-- Result record of one whole-loop run (`for { ... }`, lines 128-176):
count, error, output bytes, engine state, source state, pending input
slice afterwards, and the events of the loop. -/
structure LoopRes (σ τ : Type) : Type where
  n : Nat
  err : GoError
  out : List Nat
  s : σ
  src : τ
  input : List Nat
  evs : List Event
  deriving DecidableEq, Repr

/-- Outcome of one iteration of the `for` loop body: either the loop
returns from `Read`, or it continues with updated state. -/
inductive LoopStep (σ τ : Type) : Type
  | exit (res : LoopRes σ τ)
  | next (s : σ) (src : τ) (input : List Nat) (evs : List Event)

/-- One iteration of the `for` loop body of `Reader.Read`
(`reader.go` lines 128-176): call `DecompressStream`, advance `r.in`
past consumed bytes, then dispatch on the result exactly as the Go
`switch` and the code after it do. -/
def loopStep {σ τ : Type} (eng : EngineOps σ) (so : SourceOps τ)
    (s : σ) (src : τ) (input : List Nat) (pLen bufCap : Nat) :
    LoopStep σ τ :=
  let d := eng.decompress s pLen input
  let input2 := input.drop d.consumed    -- r.in = r.in[int(consumed):]
  let n := d.out.length                  -- n = int(written)
  let ev := Event.engineCall n d.consumed
  match d.result with
  | .success =>
      -- case BROTLI_DECODER_RESULT_SUCCESS
      if input2.length > 0 then
        .exit ⟨n, some GoErr.excessiveInput, d.out, d.s, src, input2, [ev]⟩
      else
        .exit ⟨n, none, d.out, d.s, src, input2, [ev]⟩
  | .error =>
      -- case BROTLI_DECODER_RESULT_ERROR
      .exit ⟨n, some (GoErr.decodeErr (eng.errorCode d.s)), d.out, d.s, src,
             input2, [ev]⟩
  | .needsMoreOutput =>
      -- case BROTLI_DECODER_RESULT_NEEDS_MORE_OUTPUT
      if n = 0 then
        .exit ⟨0, some GoErr.shortBuffer, d.out, d.s, src, input2, [ev]⟩
      else
        .exit ⟨n, none, d.out, d.s, src, input2, [ev]⟩
  | .needsMoreInput =>
      -- case BROTLI_DECODER_NEEDS_MORE_INPUT falls out of the switch
      if input2.length ≠ 0 then
        -- return 0, errInvalidState
        .exit ⟨0, some GoErr.invalidState, d.out, d.s, src, input2, [ev]⟩
      else if n > 0 then
        -- do not block if we have data to return
        .exit ⟨n, none, d.out, d.s, src, input2, [ev]⟩
      else
        -- top off the buffer: encN, err := r.src.Read(r.buf)
        let t := so.read src bufCap
        let rev := Event.srcRead t.chunk.length t.err
        if t.chunk.length = 0 then
          if t.err = some GoErr.eof then
            .exit ⟨0, some GoErr.unexpectedEOF, d.out, d.s, t.src, input2,
                   [ev, rev]⟩
          else
            .exit ⟨0, t.err, d.out, d.s, t.src, input2, [ev, rev]⟩
        else
          -- r.in = r.buf[:encN]; continue the loop
          .next d.s t.src t.chunk [ev, rev]

/-- The `for` loop of `Reader.Read`, fueled (the Go loop has no intrinsic
bound: an adversarial source/engine pair can iterate forever).  `none`
means the fuel ran out before the loop returned. -/
def readLoop {σ τ : Type} (eng : EngineOps σ) (so : SourceOps τ) :
    Nat → σ → τ → List Nat → Nat → Nat → Option (LoopRes σ τ)
  | 0, _, _, _, _, _ => none
  | fuel + 1, s, src, input, pLen, bufCap =>
    match loopStep eng so s src input pLen bufCap with
    | .exit res => some res
    | .next s2 src2 input2 evs =>
        (readLoop eng so fuel s2 src2 input2 pLen bufCap).map
          fun res => { res with evs := evs ++ res.evs }

/-- Shared tail of `Reader.Read` after the refill step: the zero-length
buffer check (line 124) followed by the decompression loop.  `s` is the
(non-nil) decoder state, `evs0` the events of the refill step. -/
def readBody {σ τ : Type} (eng : EngineOps σ) (so : SourceOps τ)
    (fuel : Nat) (s : σ) (r : RState σ τ) (pLen : Nat)
    (evs0 : List Event) : Option (ReadRes σ τ) :=
  if pLen = 0 then
    -- if len(p) == 0 { return 0, nil }
    some ⟨0, none, [], r, evs0⟩
  else
    (readLoop eng so fuel s r.src r.input pLen r.bufCap).map
      fun res =>
        ⟨res.n, res.err, res.out,
         { r with src := res.src, state := some res.s, input := res.input },
         evs0 ++ res.evs⟩

/-- `Reader.Read` (`reader.go` lines 106-179).  `pLen` is `len(p)`, the
capacity of the caller's buffer.  Returns `none` only when the loop fuel
runs out. -/
def RState.read {σ τ : Type} (eng : EngineOps σ) (so : SourceOps τ)
    (fuel : Nat) (r : RState σ τ) (pLen : Nat) : Option (ReadRes σ τ) :=
  match r.state with
  | none =>
      -- if r.state == nil { return 0, errReaderClosed }
      some ⟨0, some GoErr.readerClosed, [], r, []⟩
  | some s =>
      if eng.hasMoreOutput s = false ∧ r.input.length = 0 then
        -- m, readErr := r.src.Read(r.buf)
        let t := so.read r.src r.bufCap
        let ev := Event.srcRead t.chunk.length t.err
        if t.chunk.length = 0 then
          if t.err ≠ some GoErr.eof then
            -- return 0, readErr
            some ⟨0, t.err, [], { r with src := t.src }, [ev]⟩
          else if eng.isFinished s = false then
            -- return 0, io.ErrUnexpectedEOF
            some ⟨0, some GoErr.unexpectedEOF, [], { r with src := t.src },
                  [ev]⟩
          else
            -- return 0, io.EOF
            some ⟨0, some GoErr.eof, [], { r with src := t.src }, [ev]⟩
        else
          -- r.in = r.buf[:m]
          readBody eng so fuel s
            { r with src := t.src, input := t.chunk } pLen [ev]
      else
        readBody eng so fuel s r pLen []

/-- Result record of `Reader.Close`. -/
structure CloseRes (σ τ : Type) : Type where
  err : GoError
  r : RState σ τ
  evs : List Event
  deriving DecidableEq, Repr

/-- `Reader.Close` (`reader.go` lines 92-104): destroy the decoder state
exactly once, then release the dictionary pin if held; a second call
finds `state == nil` and reports `errReaderClosed`. -/
def RState.close {σ τ : Type} (r : RState σ τ) : CloseRes σ τ :=
  match r.state with
  | none => ⟨some GoErr.readerClosed, r, []⟩
  | some _ =>
      ⟨none, { r with state := none, pinner := false },
       Event.destroy :: if r.pinner then [Event.unpin] else []⟩

/-- Decoder state resulting from construction: fresh state `s0`, with the
one-time `AttachDictionary` call applied when a dictionary is supplied.
The Go code ignores the boolean returned by
`BrotliDecoderAttachDictionary` ("TODO(eustas): use return value"). -/
def attachState {σ : Type} (eng : EngineOps σ) (s0 : σ)
    (dictionary : Option (List Nat)) : σ :=
  match dictionary with
  | none => s0
  | some d => (eng.attach s0 d).1

/-- `NewReaderWithRawDictionary` (`reader.go` lines 73-89): `s0` stands
for the fresh state made by `BrotliDecoderCreateInstance`;
`dictionary = none` models a nil dictionary slice.  The function has no
error return: it always yields an open `Reader`. -/
def NewReaderWithRawDictionary {σ τ : Type} (eng : EngineOps σ) (s0 : σ)
    (src : τ) (dictionary : Option (List Nat)) : RState σ τ :=
  ⟨src, some (attachState eng s0 dictionary), readBufSize, [],
   dictionary.isSome⟩

/-- `NewReader` (`reader.go` lines 67-69). -/
def NewReader {σ τ : Type} (eng : EngineOps σ) (s0 : σ) (src : τ) :
    RState σ τ :=
  NewReaderWithRawDictionary eng s0 src none

/-- `bytes.NewReader(nil)` as used by `DecodeWithRawDictionary`: a Source
whose every read obtains zero bytes and reports `io.EOF` (the source
comment: "arbitrarily small but nonzero so that r.src.Read returns
io.EOF"). -/
def eofSrc : SourceOps Unit :=
  ⟨fun u _ => ⟨u, [], some GoErr.eof⟩⟩

/-- Result record of `ioutil.ReadAll`. -/
structure AllRes (σ τ : Type) : Type where
  data : List Nat
  err : GoError
  r : RState σ τ
  evs : List Event
  deriving DecidableEq, Repr

/-- `ioutil.ReadAll(r)` as used by `DecodeWithRawDictionary`: call
`Read` with a fixed chunk capacity `pLen`, concatenating output, until a
non-nil error; `io.EOF` terminates with success.  `fuel` bounds the
number of `Read` calls, `rfuel` the loop fuel of each call. -/
def readAll {σ τ : Type} (eng : EngineOps σ) (so : SourceOps τ) :
    Nat → Nat → Nat → RState σ τ → Option (AllRes σ τ)
  | 0, _, _, _ => none
  | fuel + 1, rfuel, pLen, r =>
    (RState.read eng so rfuel r pLen).bind fun o =>
      match o.err with
      | none =>
          (readAll eng so fuel rfuel pLen o.r).map
            fun a => ⟨o.out ++ a.data, a.err, a.r, o.evs ++ a.evs⟩
      | some GoErr.eof => some ⟨o.out, none, o.r, o.evs⟩
      | some e => some ⟨o.out, some e, o.r, o.evs⟩

/-- Result record of the one-shot decode: the returned byte slice
(`none` models a nil slice), the error, and the full event trace. -/
structure DecodeRes : Type where
  data : Option (List Nat)
  err : GoError
  evs : List Event
  deriving DecidableEq, Repr

/-- `DecodeWithRawDictionary` (`reader.go` lines 187-210): build a
`Reader` over `bytes.NewReader(nil)` with `buf` of length 4 and `in`
preset to the whole `encodedData`, run `ioutil.ReadAll`, and close the
reader (deferred) on every exit path; on error return a nil slice. -/
def DecodeWithRawDictionary {σ : Type} (eng : EngineOps σ) (s0 : σ)
    (fuel rfuel pLen : Nat) (encodedData : List Nat)
    (dictionary : Option (List Nat)) : Option DecodeRes :=
  let r : RState σ Unit :=
    ⟨(), some (attachState eng s0 dictionary), 4, encodedData,
     dictionary.isSome⟩
  (readAll eng eofSrc fuel rfuel pLen r).map fun a =>
    let c := a.r.close      -- defer r.Close()
    match a.err with
    | some e => ⟨none, some e, a.evs ++ c.evs⟩
    | none => ⟨some a.data, none, a.evs ++ c.evs⟩

/-- `Decode` (`reader.go` lines 182-184). -/
def Decode {σ : Type} (eng : EngineOps σ) (s0 : σ)
    (fuel rfuel pLen : Nat) (encodedData : List Nat) : Option DecodeRes :=
  DecodeWithRawDictionary eng s0 fuel rfuel pLen encodedData none

/-! Concrete engine and source instances used to exercise the model on
explicit inputs. -/

/-- An engine with no buffered output that is already finished; its
decompress step produces nothing and asks for more input. -/
def finEng : EngineOps Unit :=
  ⟨fun _ => false, fun _ => true,
   fun s _ _ => ⟨s, [], 0, DecoderResult.needsMoreInput⟩,
   fun _ => 0, fun s _ => (s, true)⟩

/-- An engine that reports buffered output pending (so `Read` skips the
refill step); its decompress step produces nothing. -/
def bufEng : EngineOps Unit :=
  ⟨fun _ => true, fun _ => false,
   fun s _ _ => ⟨s, [], 0, DecoderResult.needsMoreInput⟩,
   fun _ => 0, fun s _ => (s, true)⟩

/-- A misbehaving engine: it writes one byte, consumes nothing, and still
asks for more input, driving `Read` into the `errInvalidState` exit. -/
def badEng : EngineOps Unit :=
  ⟨fun _ => true, fun _ => false,
   fun s _ _ => ⟨s, [9], 0, DecoderResult.needsMoreInput⟩,
   fun _ => 0, fun s _ => (s, true)⟩

/-- An engine whose decompress step writes one byte, consumes all input,
and reports success. -/
def succEng : EngineOps Unit :=
  ⟨fun _ => true, fun _ => true,
   fun s _ i => ⟨s, [3], i.length, DecoderResult.success⟩,
   fun _ => 0, fun s _ => (s, true)⟩

/-- An engine whose decompress step writes two bytes and reports that it
needs more output space. -/
def outEng : EngineOps Unit :=
  ⟨fun _ => true, fun _ => false,
   fun s _ _ => ⟨s, [4, 5], 0, DecoderResult.needsMoreOutput⟩,
   fun _ => 0, fun s _ => (s, true)⟩

/-- An engine whose decompress step writes nothing, consumes all input,
and asks for more input. -/
def moreInEng : EngineOps Unit :=
  ⟨fun _ => true, fun _ => false,
   fun s _ i => ⟨s, [], i.length, DecoderResult.needsMoreInput⟩,
   fun _ => 0, fun s _ => (s, true)⟩

/-- An engine (over `Nat` states) whose `AttachDictionary` advances the
state but reports failure (`BROTLI_BOOL` false). -/
def rejectEng : EngineOps Nat :=
  ⟨fun _ => false, fun _ => false,
   fun s _ _ => ⟨s, [], 0, DecoderResult.needsMoreInput⟩,
   fun _ => 0, fun s _ => (s + 1, false)⟩

/-- An engine that decodes any chunk to `[1, 2]`, consumes one byte, and
succeeds; finished once the stream ends. -/
def trivEng : EngineOps Unit :=
  ⟨fun _ => false, fun _ => true,
   fun s _ i => ⟨s, [1, 2], min 1 i.length, DecoderResult.success⟩,
   fun _ => 0, fun s _ => (s, true)⟩

/-- An engine that reports success while consuming nothing, leaving
trailing input behind. -/
def trailEng : EngineOps Unit :=
  ⟨fun _ => false, fun _ => true,
   fun s _ _ => ⟨s, [1, 2], 0, DecoderResult.success⟩,
   fun _ => 0, fun s _ => (s, true)⟩

/-- An engine whose decompress step writes one byte, consumes all input,
and reports a decode error with code 7. -/
def errEng : EngineOps Unit :=
  ⟨fun _ => true, fun _ => false,
   fun s _ i => ⟨s, [8], i.length, DecoderResult.error⟩,
   fun _ => 7, fun s _ => (s, true)⟩

/-! Helper lemmas. -/

/-- totalWritten distributes over trace concatenation. -/
theorem totalWritten_append (a b : List Event) :
    totalWritten (a ++ b) = totalWritten a + totalWritten b := by
  simp [totalWritten]

/-- countDestroy distributes over trace concatenation. -/
theorem countDestroy_append (a b : List Event) :
    countDestroy (a ++ b) = countDestroy a + countDestroy b := by
  simp [countDestroy, List.countP_append]

/-- When the refill guard of `Read` fails (the engine holds buffered
output or the pending input slice is non-empty) and the caller's buffer
is non-empty, `Read` is exactly its decompression loop. -/
theorem read_skip_refill {σ τ : Type} (eng : EngineOps σ) (so : SourceOps τ)
    (fuel : Nat) (r : RState σ τ) (s : σ) (pLen : Nat)
    (hs : r.state = some s)
    (hskip : ¬(eng.hasMoreOutput s = false ∧ r.input.length = 0))
    (hp : pLen ≠ 0) :
    RState.read eng so fuel r pLen =
      (readLoop eng so fuel s r.src r.input pLen r.bufCap).map
        fun res =>
          ⟨res.n, res.err, res.out,
           { r with src := res.src, state := some res.s, input := res.input },
           res.evs⟩ := by
  unfold RState.read
  rw [hs]
  dsimp only
  rw [if_neg hskip]
  unfold readBody
  rw [if_neg hp]
  rfl

/-- Invariants of one loop iteration: on an exit, the returned count
equals the bytes written in the iteration except on the
`errInvalidState` exit, which returns 0; no iteration records a
destruction event.  On a continue, the iteration wrote nothing. -/
theorem loopStep_inv {σ τ : Type} (eng : EngineOps σ) (so : SourceOps τ)
    (s : σ) (src : τ) (input : List Nat) (pLen bufCap : Nat) :
    (∀ res : LoopRes σ τ, loopStep eng so s src input pLen bufCap = .exit res →
      (res.err ≠ some GoErr.invalidState → res.n = totalWritten res.evs) ∧
      (res.err = some GoErr.invalidState → res.n = 0) ∧
      countDestroy res.evs = 0) ∧
    (∀ (s2 : σ) (src2 : τ) (in2 : List Nat) (evs : List Event),
      loopStep eng so s src input pLen bufCap = .next s2 src2 in2 evs →
      totalWritten evs = 0 ∧ countDestroy evs = 0) := by
  rcases hd : eng.decompress s pLen input with ⟨s2, out, c, result⟩
  rcases ht : so.read src bufCap with ⟨src3, chunk, e⟩
  constructor
  · intro res hres
    unfold loopStep at hres
    rw [hd] at hres
    dsimp only at hres
    cases result <;> rw [ht] at hres <;> dsimp only at hres <;>
      (try split_ifs at hres) <;>
      first
        | exact LoopStep.noConfusion hres
        | ((injection hres with h; subst h) <;>
           refine ⟨?_, ?_, ?_⟩ <;> intros <;>
           simp_all [totalWritten, Event.written, countDestroy])
  · intro s3 src4 in2 evs hres
    unfold loopStep at hres
    rw [hd] at hres
    dsimp only at hres
    cases result <;> rw [ht] at hres <;> dsimp only at hres <;>
      (try split_ifs at hres) <;>
      first
        | exact LoopStep.noConfusion hres
        | (injection hres with h1 h2 h3 h4; subst h4;
           simp_all [totalWritten, Event.written, countDestroy])

/-- Invariants of a full run of the `Read` loop: the count returned
equals the total bytes written over the run unless the run ends in
`errInvalidState`, in which case the count is 0; the loop never records
a destruction event. -/
theorem readLoop_inv {σ τ : Type} (eng : EngineOps σ) (so : SourceOps τ) :
    ∀ (fuel : Nat) (s : σ) (src : τ) (input : List Nat) (pLen bufCap : Nat)
      (res : LoopRes σ τ),
      readLoop eng so fuel s src input pLen bufCap = some res →
      (res.err ≠ some GoErr.invalidState → res.n = totalWritten res.evs) ∧
      (res.err = some GoErr.invalidState → res.n = 0) ∧
      countDestroy res.evs = 0 := by
  intro fuel
  induction fuel with
  | zero =>
      intro s src input pLen bufCap res h
      simp [readLoop] at h
  | succ fuel ih =>
      intro s src input pLen bufCap res h
      rw [readLoop] at h
      cases hstep : loopStep eng so s src input pLen bufCap with
      | exit res2 =>
          rw [hstep] at h
          dsimp only at h
          injection h with h
          subst h
          exact (loopStep_inv eng so s src input pLen bufCap).1 res2 hstep
      | next s2 src2 in2 evs =>
          rw [hstep] at h
          dsimp only at h
          rw [Option.map_eq_some'] at h
          obtain ⟨res0, h0, hres⟩ := h
          subst hres
          obtain ⟨w1, w2, w3⟩ := ih s2 src2 in2 pLen bufCap res0 h0
          obtain ⟨z1, z2⟩ :=
            (loopStep_inv eng so s src input pLen bufCap).2 s2 src2 in2 evs hstep
          refine ⟨?_, ?_, ?_⟩ <;>
            simp_all [totalWritten_append, countDestroy_append]

/-- Invariants of the post-refill tail of `Read`, given a prefix trace
that wrote nothing and destroyed nothing. -/
theorem readBody_inv {σ τ : Type} (eng : EngineOps σ) (so : SourceOps τ)
    (fuel : Nat) (s : σ) (r : RState σ τ) (pLen : Nat) (evs0 : List Event)
    (o : ReadRes σ τ)
    (hw0 : totalWritten evs0 = 0) (hd0 : countDestroy evs0 = 0)
    (hrs : ∃ s2 : σ, r.state = some s2)
    (h : readBody eng so fuel s r pLen evs0 = some o) :
    (o.err ≠ some GoErr.invalidState → o.n = totalWritten o.evs) ∧
    (o.err = some GoErr.invalidState → o.n = 0) ∧
    countDestroy o.evs = 0 ∧
    (∃ s2 : σ, o.r.state = some s2) := by
  unfold readBody at h
  by_cases hp : pLen = 0
  · rw [if_pos hp] at h
    injection h with h
    subst h
    simp_all
  · rw [if_neg hp] at h
    rw [Option.map_eq_some'] at h
    obtain ⟨res, hloop, hres⟩ := h
    subst hres
    obtain ⟨w1, w2, w3⟩ :=
      readLoop_inv eng so fuel s r.src r.input pLen r.bufCap res hloop
    refine ⟨?_, ?_, ?_, ?_⟩ <;>
      simp_all [totalWritten_append, countDestroy_append]

/-- Invariants of a whole `Read` call on an open reader: the count
equals the total bytes written (except the `errInvalidState` exit, which
returns 0), no destruction event is recorded, and the reader stays
open. -/
theorem read_inv {σ τ : Type} (eng : EngineOps σ) (so : SourceOps τ)
    (fuel : Nat) (r : RState σ τ) (s : σ) (pLen : Nat) (o : ReadRes σ τ)
    (hs : r.state = some s)
    (h : RState.read eng so fuel r pLen = some o) :
    (o.err ≠ some GoErr.invalidState → o.n = totalWritten o.evs) ∧
    (o.err = some GoErr.invalidState → o.n = 0) ∧
    countDestroy o.evs = 0 ∧
    (∃ s2 : σ, o.r.state = some s2) := by
  unfold RState.read at h
  rw [hs] at h
  dsimp only at h
  by_cases hg : eng.hasMoreOutput s = false ∧ r.input.length = 0
  · rw [if_pos hg] at h
    rcases ht : so.read r.src r.bufCap with ⟨src2, chunk, e⟩
    rw [ht] at h
    dsimp only at h
    by_cases hch : chunk.length = 0
    · rw [if_pos hch] at h
      split_ifs at h <;>
        (injection h with h; subst h;
         refine ⟨?_, ?_, ?_, ?_⟩ <;>
           simp_all [totalWritten, Event.written, countDestroy])
    · rw [if_neg hch] at h
      exact readBody_inv eng so fuel s _ pLen _ o
        (by simp [totalWritten, Event.written])
        (by simp [countDestroy]) ⟨s, rfl⟩ h
  · rw [if_neg hg] at h
    exact readBody_inv eng so fuel s r pLen [] o rfl rfl ⟨s, hs⟩ h

/-- A `ReadAll` run over an open reader never records a destruction
event and leaves the reader open (reading never closes it). -/
theorem readAll_inv {σ τ : Type} (eng : EngineOps σ) (so : SourceOps τ) :
    ∀ (fuel rfuel pLen : Nat) (r : RState σ τ) (s : σ) (a : AllRes σ τ),
      r.state = some s →
      readAll eng so fuel rfuel pLen r = some a →
      countDestroy a.evs = 0 ∧ ∃ s2 : σ, a.r.state = some s2 := by
  intro fuel
  induction fuel with
  | zero =>
      intro rfuel pLen r s a hs h
      simp [readAll] at h
  | succ fuel ih =>
      intro rfuel pLen r s a hs h
      rw [readAll] at h
      rw [Option.bind_eq_some] at h
      obtain ⟨o, hread, h2⟩ := h
      obtain ⟨c1, c2, c3, s2, hs2⟩ := read_inv eng so rfuel r s pLen o hs hread
      cases he : o.err with
      | none =>
          rw [he] at h2
          dsimp only at h2
          rw [Option.map_eq_some'] at h2
          obtain ⟨a0, ha0, ha⟩ := h2
          subst ha
          obtain ⟨d1, d2⟩ := ih rfuel pLen o.r s2 a0 hs2 ha0
          exact ⟨by simp [countDestroy_append, c3, d1], d2⟩
      | some e =>
          cases e <;> rw [he] at h2 <;> dsimp only at h2 <;>
            (injection h2 with h2; subst h2; exact ⟨c3, s2, hs2⟩)

/-! Claim theorems. -/

/-- C1: For every Read call on an open Reader in which the engine holds
no buffered output and the Pending Input Slice is empty, if the Source
signals end-of-data (io.EOF) with zero bytes then Read returns
(0, io.EOF) when the engine reports IsFinished and
(0, io.ErrUnexpectedEOF) otherwise; if the Source yields zero bytes with
a non-end-of-data error, that error is propagated verbatim with
count 0. -/
theorem claim_C1 {σ τ : Type} (eng : EngineOps σ) (so : SourceOps τ)
    (fuel : Nat) (r : RState σ τ) (s : σ) (pLen : Nat) (src2 : τ)
    (e : GoError)
    (hs : r.state = some s)
    (hout : eng.hasMoreOutput s = false)
    (hin : r.input = [])
    (hread : so.read r.src r.bufCap = ⟨src2, [], e⟩) :
    (e = some GoErr.eof →
      RState.read eng so fuel r pLen =
        some ⟨0,
              (if eng.isFinished s = true then some GoErr.eof
               else some GoErr.unexpectedEOF),
              [], { r with src := src2 }, [Event.srcRead 0 e]⟩) ∧
    (e ≠ some GoErr.eof →
      RState.read eng so fuel r pLen =
        some ⟨0, e, [], { r with src := src2 }, [Event.srcRead 0 e]⟩) := by
  constructor
  · intro he
    subst he
    unfold RState.read
    rw [hs]
    dsimp only
    rw [if_pos ⟨hout, by simp [hin]⟩, hread]
    cases hf : eng.isFinished s <;> simp [hf]
  · intro he
    unfold RState.read
    rw [hs]
    dsimp only
    rw [if_pos ⟨hout, by simp [hin]⟩, hread]
    simp [he]

/-- Witness for C1 at a concrete engine, source and reader. -/
theorem claim_C1_witness :
    (⟨(), some (), 4, [], false⟩ : RState Unit Unit).state = some () ∧
    finEng.hasMoreOutput () = false ∧
    (⟨(), some (), 4, [], false⟩ : RState Unit Unit).input = [] ∧
    eofSrc.read () 4 = ⟨(), [], some GoErr.eof⟩ ∧
    ((some GoErr.eof = some GoErr.eof →
      RState.read finEng eofSrc 1 ⟨(), some (), 4, [], false⟩ 5 =
        some ⟨0,
              (if finEng.isFinished () = true then some GoErr.eof
               else some GoErr.unexpectedEOF),
              [], ⟨(), some (), 4, [], false⟩,
              [Event.srcRead 0 (some GoErr.eof)]⟩) ∧
     (some GoErr.eof ≠ some GoErr.eof →
      RState.read finEng eofSrc 1 ⟨(), some (), 4, [], false⟩ 5 =
        some ⟨0, some GoErr.eof, [], ⟨(), some (), 4, [], false⟩,
              [Event.srcRead 0 (some GoErr.eof)]⟩)) :=
  ⟨rfl, rfl, rfl, rfl,
   claim_C1 finEng eofSrc 1 ⟨(), some (), 4, [], false⟩ () 5 ()
     (some GoErr.eof) rfl rfl rfl rfl⟩

/-- C2 (amended): Calling Read with a zero-length destination buffer
never invokes the engine's decompress step and always returns count 0
with no output bytes; when the engine holds buffered output or the
Pending Input Slice is non-empty it returns (0, Ok) without touching the
Source; but when the refill guard holds, the Source refill runs first
and its outcome (including EndOfStream / UnexpectedEndOfStream /
propagated Source errors) is returned instead. -/
theorem claim_C2 {σ τ : Type} (eng : EngineOps σ) (so : SourceOps τ)
    (fuel : Nat) (r : RState σ τ) (s : σ) (o : ReadRes σ τ)
    (hs : r.state = some s)
    (h : RState.read eng so fuel r 0 = some o) :
    o.n = 0 ∧ o.out = [] ∧ engineCalls o.evs = 0 ∧
    ((eng.hasMoreOutput s = true ∨ r.input ≠ []) →
      o = ⟨0, none, [], r, []⟩) := by
  unfold RState.read at h
  rw [hs] at h
  dsimp only at h
  by_cases hg : eng.hasMoreOutput s = false ∧ r.input.length = 0
  · rw [if_pos hg] at h
    rcases ht : so.read r.src r.bufCap with ⟨src2, chunk, e⟩
    rw [ht] at h
    dsimp only at h
    have hcontra : ¬(eng.hasMoreOutput s = true ∨ r.input ≠ []) := by
      rcases hg with ⟨hg1, hg2⟩
      rintro (h1 | h2)
      · rw [hg1] at h1
        cases h1
      · exact h2 (List.length_eq_zero.mp hg2)
    by_cases hch : chunk.length = 0
    · rw [if_pos hch] at h
      split_ifs at h <;>
        (injection h with h; subst h;
         exact ⟨rfl, rfl, by simp [engineCalls], fun hc => absurd hc hcontra⟩)
    · rw [if_neg hch] at h
      unfold readBody at h
      rw [if_pos rfl] at h
      injection h with h
      subst h
      exact ⟨rfl, rfl, by simp [engineCalls], fun hc => absurd hc hcontra⟩
  · rw [if_neg hg] at h
    unfold readBody at h
    rw [if_pos rfl] at h
    injection h with h
    subst h
    exact ⟨rfl, rfl, by simp [engineCalls], fun _ => rfl⟩

/-- Counterexample to C2 as stated: on an open Reader whose engine holds
no buffered output and whose pending input slice is empty, a zero-length
Read performs a Source read and returns (0, io.EOF), not (0, Ok). -/
theorem claim_C2_cex :
    RState.read finEng eofSrc 1 ⟨(), some (), 4, [], false⟩ 0 =
      some ⟨0, some GoErr.eof, [], ⟨(), some (), 4, [], false⟩,
            [Event.srcRead 0 (some GoErr.eof)]⟩ ∧
    some GoErr.eof ≠ (none : GoError) :=
  ⟨rfl, by decide⟩

/-- Witness for C2 (amended) at a concrete engine with buffered
output. -/
theorem claim_C2_witness :
    (⟨(), some (), 4, [], false⟩ : RState Unit Unit).state = some () ∧
    RState.read bufEng eofSrc 1 ⟨(), some (), 4, [], false⟩ 0 =
      some ⟨0, none, [], ⟨(), some (), 4, [], false⟩, []⟩ ∧
    ((0 : Nat) = 0 ∧ ([] : List Nat) = [] ∧ engineCalls [] = 0 ∧
     ((bufEng.hasMoreOutput () = true ∨
       (⟨(), some (), 4, [], false⟩ : RState Unit Unit).input ≠ []) →
        (⟨0, none, [], ⟨(), some (), 4, [], false⟩, []⟩ : ReadRes Unit Unit) =
          ⟨0, none, [], ⟨(), some (), 4, [], false⟩, []⟩)) :=
  ⟨rfl, rfl,
   claim_C2 bufEng eofSrc 1 ⟨(), some (), 4, [], false⟩ ()
     ⟨0, none, [], ⟨(), some (), 4, [], false⟩, []⟩ rfl rfl⟩

/-- C3 (amended): For every Read call on an open reader that ends with a
failure status other than errInvalidState, the count returned equals the
total number of decoded bytes the engine wrote into the caller's buffer
during that call; on the errInvalidState exit the count returned is 0
even when the engine reported written bytes in that invocation. -/
theorem claim_C3 {σ τ : Type} (eng : EngineOps σ) (so : SourceOps τ)
    (fuel : Nat) (r : RState σ τ) (s : σ) (pLen : Nat) (o : ReadRes σ τ)
    (hs : r.state = some s)
    (h : RState.read eng so fuel r pLen = some o) :
    (o.err ≠ none → o.err ≠ some GoErr.invalidState →
      o.n = totalWritten o.evs) ∧
    (o.err = some GoErr.invalidState → o.n = 0) := by
  obtain ⟨c1, c2, _, _⟩ := read_inv eng so fuel r s pLen o hs h
  exact ⟨fun _ h2 => c1 h2, c2⟩

/-- Counterexample to C3 as stated: an engine that writes one byte but
still asks for more input while leaving the pending slice non-empty
drives Read into the errInvalidState exit, which returns count 0 even
though one decoded byte was written into the caller's buffer. -/
theorem claim_C3_cex :
    RState.read badEng eofSrc 1 ⟨(), some (), 4, [5], false⟩ 4 =
      some ⟨0, some GoErr.invalidState, [9], ⟨(), some (), 4, [5], false⟩,
            [Event.engineCall 1 0]⟩ ∧
    totalWritten [Event.engineCall 1 0] = 1 ∧ (0 : Nat) ≠ 1 :=
  ⟨rfl, rfl, by decide⟩

/-- Witness for C3 (amended) at a concrete engine whose decompress step
fails after writing one byte. -/
theorem claim_C3_witness :
    (⟨(), some (), 4, [5], false⟩ : RState Unit Unit).state = some () ∧
    RState.read errEng eofSrc 1 ⟨(), some (), 4, [5], false⟩ 4 =
      some ⟨1, some (GoErr.decodeErr 7), [8], ⟨(), some (), 4, [], false⟩,
            [Event.engineCall 1 1]⟩ ∧
    ((some (GoErr.decodeErr 7) ≠ (none : GoError) →
      some (GoErr.decodeErr 7) ≠ some GoErr.invalidState →
      (1 : Nat) = totalWritten [Event.engineCall 1 1]) ∧
     (some (GoErr.decodeErr 7) = some GoErr.invalidState → (1 : Nat) = 0)) :=
  ⟨rfl, rfl,
   claim_C3 errEng eofSrc 1 ⟨(), some (), 4, [5], false⟩ () 4
     ⟨1, some (GoErr.decodeErr 7), [8], ⟨(), some (), 4, [], false⟩,
      [Event.engineCall 1 1]⟩ rfl rfl⟩

/-- C4: the claim (and spec) require that a failure reported by the
one-time AttachDictionary call be propagated to the caller, but the code
ignores the call's return value ("TODO(eustas): use return value") and
has no error channel in either constructor.  This theorem evaluates the
code at a failing input: with an engine whose attach reports failure,
NewReaderWithRawDictionary still returns an open Reader, construction is
wholly insensitive to the attach success flag, and the one-shot decode
path likewise surfaces no attach-related error. -/
theorem claim_C4 :
    (rejectEng.attach 0 [1]).2 = false ∧
    NewReaderWithRawDictionary rejectEng 0 () (some [1]) =
      ⟨(), some 1, readBufSize, [], true⟩ ∧
    (∀ (σ τ : Type) (eng : EngineOps σ) (s0 : σ) (src : τ)
       (dict : Option (List Nat)) (b : Bool),
       NewReaderWithRawDictionary
         ⟨eng.hasMoreOutput, eng.isFinished, eng.decompress, eng.errorCode,
          fun s d => ((eng.attach s d).1, b)⟩ s0 src dict =
       NewReaderWithRawDictionary eng s0 src dict) ∧
    DecodeWithRawDictionary rejectEng 0 1 1 4 [] (some [1]) =
      some ⟨none, some GoErr.unexpectedEOF,
            [Event.srcRead 0 (some GoErr.eof), Event.destroy,
             Event.unpin]⟩ := by
  refine ⟨rfl, rfl, ?_, rfl⟩
  intro σ τ eng s0 src dict b
  cases dict <;> rfl

/-- C5: For every iteration of the Read loop in which the engine returns
Done (SUCCESS): if the pending input slice is non-empty after advancing
past the consumed bytes, the call returns the count of bytes written
together with errExcessiveInput; if it is empty, it returns (n, Ok).
Stated both for the loop itself and for a whole Read call entering the
loop directly. -/
theorem claim_C5 {σ τ : Type} (eng : EngineOps σ) (so : SourceOps τ)
    (fuel : Nat) (r : RState σ τ) (s s2 : σ) (out : List Nat)
    (c pLen : Nat)
    (h : eng.decompress s pLen r.input = ⟨s2, out, c, DecoderResult.success⟩)
    (hs : r.state = some s) (hmo : eng.hasMoreOutput s = true)
    (hp : pLen ≠ 0) :
    readLoop eng so (fuel + 1) s r.src r.input pLen r.bufCap =
      some ⟨out.length,
            (if (r.input.drop c).length > 0 then some GoErr.excessiveInput
             else none),
            out, s2, r.src, r.input.drop c,
            [Event.engineCall out.length c]⟩ ∧
    RState.read eng so (fuel + 1) r pLen =
      some ⟨out.length,
            (if (r.input.drop c).length > 0 then some GoErr.excessiveInput
             else none),
            out, { r with state := some s2, input := r.input.drop c },
            [Event.engineCall out.length c]⟩ := by
  have hloop : readLoop eng so (fuel + 1) s r.src r.input pLen r.bufCap =
      some ⟨out.length,
            (if (r.input.drop c).length > 0 then some GoErr.excessiveInput
             else none),
            out, s2, r.src, r.input.drop c,
            [Event.engineCall out.length c]⟩ := by
    rw [readLoop]
    unfold loopStep
    rw [h]
    dsimp only
    by_cases hd : c < r.input.length <;> simp [hd]
  refine ⟨hloop, ?_⟩
  have hread := read_skip_refill eng so (fuel + 1) r s pLen hs
    (by simp [hmo]) hp
  rw [hloop] at hread
  rw [hread]
  rfl

/-- Witness for C5 at a concrete successful engine. -/
theorem claim_C5_witness :
    succEng.decompress () 4 [8] = ⟨(), [3], 1, DecoderResult.success⟩ ∧
    (⟨(), some (), 4, [8], false⟩ : RState Unit Unit).state = some () ∧
    succEng.hasMoreOutput () = true ∧ (4 : Nat) ≠ 0 ∧
    (readLoop succEng eofSrc 1 () () [8] 4 4 =
      some ⟨1,
            (if (List.drop 1 [8]).length > 0 then some GoErr.excessiveInput
             else none),
            [3], (), (), List.drop 1 [8], [Event.engineCall 1 1]⟩ ∧
     RState.read succEng eofSrc 1 ⟨(), some (), 4, [8], false⟩ 4 =
      some ⟨1,
            (if (List.drop 1 [8]).length > 0 then some GoErr.excessiveInput
             else none),
            [3], ⟨(), some (), 4, List.drop 1 [8], false⟩,
            [Event.engineCall 1 1]⟩) :=
  ⟨rfl, rfl, rfl, by decide,
   claim_C5 succEng eofSrc 0 ⟨(), some (), 4, [8], false⟩ () () [3] 1 4
     rfl rfl rfl (by decide)⟩

/-- C6: For every iteration of the Read loop in which the engine returns
NeedsMoreOutput: if zero bytes were written (n = 0), the call returns
(0, io.ErrShortBuffer); if n > 0, it returns (n, Ok) immediately — the
event trace of the call is exactly the one engine invocation, so no
further Source read or engine invocation is attempted.  Stated for the
loop and for a whole Read call entering the loop directly. -/
theorem claim_C6 {σ τ : Type} (eng : EngineOps σ) (so : SourceOps τ)
    (fuel : Nat) (r : RState σ τ) (s s2 : σ) (out : List Nat)
    (c pLen : Nat)
    (h : eng.decompress s pLen r.input =
      ⟨s2, out, c, DecoderResult.needsMoreOutput⟩)
    (hs : r.state = some s) (hmo : eng.hasMoreOutput s = true)
    (hp : pLen ≠ 0) :
    (out.length = 0 →
      readLoop eng so (fuel + 1) s r.src r.input pLen r.bufCap =
        some ⟨0, some GoErr.shortBuffer, out, s2, r.src, r.input.drop c,
              [Event.engineCall out.length c]⟩ ∧
      RState.read eng so (fuel + 1) r pLen =
        some ⟨0, some GoErr.shortBuffer, out,
              { r with state := some s2, input := r.input.drop c },
              [Event.engineCall out.length c]⟩) ∧
    (out.length ≠ 0 →
      readLoop eng so (fuel + 1) s r.src r.input pLen r.bufCap =
        some ⟨out.length, none, out, s2, r.src, r.input.drop c,
              [Event.engineCall out.length c]⟩ ∧
      RState.read eng so (fuel + 1) r pLen =
        some ⟨out.length, none, out,
              { r with state := some s2, input := r.input.drop c },
              [Event.engineCall out.length c]⟩) := by
  constructor
  · intro h0
    have hloop : readLoop eng so (fuel + 1) s r.src r.input pLen r.bufCap =
        some ⟨0, some GoErr.shortBuffer, out, s2, r.src, r.input.drop c,
              [Event.engineCall out.length c]⟩ := by
      rw [readLoop]
      unfold loopStep
      rw [h]
      dsimp only
      simp [h0]
    refine ⟨hloop, ?_⟩
    have hread := read_skip_refill eng so (fuel + 1) r s pLen hs
      (by simp [hmo]) hp
    rw [hloop] at hread
    rw [hread]
    rfl
  · intro h0
    have hloop : readLoop eng so (fuel + 1) s r.src r.input pLen r.bufCap =
        some ⟨out.length, none, out, s2, r.src, r.input.drop c,
              [Event.engineCall out.length c]⟩ := by
      rw [readLoop]
      unfold loopStep
      rw [h]
      dsimp only
      simp [h0]
    refine ⟨hloop, ?_⟩
    have hread := read_skip_refill eng so (fuel + 1) r s pLen hs
      (by simp [hmo]) hp
    rw [hloop] at hread
    rw [hread]
    rfl

/-- Witness for C6 at a concrete engine that needs more output space
after writing two bytes. -/
theorem claim_C6_witness :
    outEng.decompress () 4 [6] =
      ⟨(), [4, 5], 0, DecoderResult.needsMoreOutput⟩ ∧
    (⟨(), some (), 4, [6], false⟩ : RState Unit Unit).state = some () ∧
    outEng.hasMoreOutput () = true ∧ (4 : Nat) ≠ 0 ∧
    ((([4, 5] : List Nat).length = 0 →
      readLoop outEng eofSrc 1 () () [6] 4 4 =
        some ⟨0, some GoErr.shortBuffer, [4, 5], (), (), List.drop 0 [6],
              [Event.engineCall ([4, 5] : List Nat).length 0]⟩ ∧
      RState.read outEng eofSrc 1 ⟨(), some (), 4, [6], false⟩ 4 =
        some ⟨0, some GoErr.shortBuffer, [4, 5],
              ⟨(), some (), 4, List.drop 0 [6], false⟩,
              [Event.engineCall ([4, 5] : List Nat).length 0]⟩) ∧
     (([4, 5] : List Nat).length ≠ 0 →
      readLoop outEng eofSrc 1 () () [6] 4 4 =
        some ⟨([4, 5] : List Nat).length, none, [4, 5], (), (),
              List.drop 0 [6],
              [Event.engineCall ([4, 5] : List Nat).length 0]⟩ ∧
      RState.read outEng eofSrc 1 ⟨(), some (), 4, [6], false⟩ 4 =
        some ⟨([4, 5] : List Nat).length, none, [4, 5],
              ⟨(), some (), 4, List.drop 0 [6], false⟩,
              [Event.engineCall ([4, 5] : List Nat).length 0]⟩)) :=
  ⟨rfl, rfl, rfl, by decide,
   claim_C6 outEng eofSrc 0 ⟨(), some (), 4, [6], false⟩ () () [4, 5] 0 4
     rfl rfl rfl (by decide)⟩

/-- C7: For every iteration of the Read loop in which the engine returns
NeedsMoreInput: (a) if the pending input slice is still non-empty, Read
reports errInvalidState; (b) if n > 0, Read returns (n, Ok) immediately
and its event trace holds no Source read; (c) if n = 0 the loop performs
a Source read, and zero bytes with end-of-data yields
(0, io.ErrUnexpectedEOF); (d) if the Source yields bytes, the pending
input slice is set to the filled region and the loop repeats. -/
theorem claim_C7 {σ τ : Type} (eng : EngineOps σ) (so : SourceOps τ)
    (fuel : Nat) (r : RState σ τ) (s s2 : σ) (out : List Nat)
    (c pLen : Nat)
    (h : eng.decompress s pLen r.input =
      ⟨s2, out, c, DecoderResult.needsMoreInput⟩)
    (hs : r.state = some s) (hmo : eng.hasMoreOutput s = true)
    (hp : pLen ≠ 0) :
    ((r.input.drop c).length ≠ 0 →
      readLoop eng so (fuel + 1) s r.src r.input pLen r.bufCap =
        some ⟨0, some GoErr.invalidState, out, s2, r.src, r.input.drop c,
              [Event.engineCall out.length c]⟩ ∧
      RState.read eng so (fuel + 1) r pLen =
        some ⟨0, some GoErr.invalidState, out,
              { r with state := some s2, input := r.input.drop c },
              [Event.engineCall out.length c]⟩) ∧
    ((r.input.drop c).length = 0 → out.length ≠ 0 →
      readLoop eng so (fuel + 1) s r.src r.input pLen r.bufCap =
        some ⟨out.length, none, out, s2, r.src, r.input.drop c,
              [Event.engineCall out.length c]⟩ ∧
      RState.read eng so (fuel + 1) r pLen =
        some ⟨out.length, none, out,
              { r with state := some s2, input := r.input.drop c },
              [Event.engineCall out.length c]⟩) ∧
    ((r.input.drop c).length = 0 → out.length = 0 →
      (∀ src2 : τ, so.read r.src r.bufCap = ⟨src2, [], some GoErr.eof⟩ →
        readLoop eng so (fuel + 1) s r.src r.input pLen r.bufCap =
          some ⟨0, some GoErr.unexpectedEOF, out, s2, src2,
                r.input.drop c,
                [Event.engineCall out.length c,
                 Event.srcRead 0 (some GoErr.eof)]⟩) ∧
      (∀ (src2 : τ) (chunk : List Nat) (e : GoError),
        so.read r.src r.bufCap = ⟨src2, chunk, e⟩ → chunk.length ≠ 0 →
        readLoop eng so (fuel + 1) s r.src r.input pLen r.bufCap =
          (readLoop eng so fuel s2 src2 chunk pLen r.bufCap).map
            fun res =>
              { res with
                evs := [Event.engineCall out.length c,
                        Event.srcRead chunk.length e] ++ res.evs })) := by
  refine ⟨?_, ?_, ?_⟩
  · intro ha
    have ha2 : c < r.input.length := by
      simp [List.length_drop] at ha
      omega
    have hloop : readLoop eng so (fuel + 1) s r.src r.input pLen r.bufCap =
        some ⟨0, some GoErr.invalidState, out, s2, r.src, r.input.drop c,
              [Event.engineCall out.length c]⟩ := by
      rw [readLoop]
      unfold loopStep
      rw [h]
      dsimp only
      have hsub : ¬(r.input.length - c = 0) := by omega
      simp [hsub]
    refine ⟨hloop, ?_⟩
    have hread := read_skip_refill eng so (fuel + 1) r s pLen hs
      (by simp [hmo]) hp
    rw [hloop] at hread
    rw [hread]
    rfl
  · intro hc h0
    have hc2 : ¬(c < r.input.length) := by
      simp [List.length_drop] at hc
      omega
    have h02 : 0 < out.length := Nat.pos_of_ne_zero h0
    have hloop : readLoop eng so (fuel + 1) s r.src r.input pLen r.bufCap =
        some ⟨out.length, none, out, s2, r.src, r.input.drop c,
              [Event.engineCall out.length c]⟩ := by
      rw [readLoop]
      unfold loopStep
      rw [h]
      dsimp only
      have hsub : r.input.length - c = 0 := by omega
      simp [hsub, h02]
    refine ⟨hloop, ?_⟩
    have hread := read_skip_refill eng so (fuel + 1) r s pLen hs
      (by simp [hmo]) hp
    rw [hloop] at hread
    rw [hread]
    rfl
  · intro hc h0
    have hc2 : ¬(c < r.input.length) := by
      simp [List.length_drop] at hc
      omega
    have h02 : ¬(0 < out.length) := by omega
    constructor
    · intro src2 hsrc
      rw [readLoop]
      unfold loopStep
      rw [h]
      dsimp only
      have hsub : r.input.length - c = 0 := by omega
      simp [hsub, h02, hsrc, h0]
    · intro src2 chunk e hsrc hch
      rw [readLoop]
      unfold loopStep
      rw [h]
      dsimp only
      have hsub : r.input.length - c = 0 := by omega
      simp [hsub, h02, hsrc, hch, h0]

/-- Witness for C7 at a concrete engine that consumes its input and asks
for more while the source is already exhausted. -/
theorem claim_C7_witness :
    moreInEng.decompress () 4 [1] =
      ⟨(), [], 1, DecoderResult.needsMoreInput⟩ ∧
    (⟨(), some (), 4, [1], false⟩ : RState Unit Unit).state = some () ∧
    eofSrc.read () 4 = ⟨(), [], some GoErr.eof⟩ ∧
    readLoop moreInEng eofSrc 1 () () [1] 4 4 =
      some ⟨0, some GoErr.unexpectedEOF, [], (), (), List.drop 1 [1],
            [Event.engineCall 0 1, Event.srcRead 0 (some GoErr.eof)]⟩ :=
  ⟨rfl, rfl, rfl,
   ((claim_C7 moreInEng eofSrc 0 ⟨(), some (), 4, [1], false⟩ () () [] 1 4
       rfl rfl rfl (by decide)).2.2 rfl rfl).1 () rfl⟩

/-- C8: After Close succeeds on an open Reader, the decoder state is
destroyed exactly once, the dictionary pin (if held) is released only
after that destruction, every subsequent Read returns
(0, errReaderClosed) with an empty event trace (touching neither Source
nor engine), and every subsequent Close returns errReaderClosed without
recording another destruction. -/
theorem claim_C8 {σ τ : Type} (eng : EngineOps σ) (so : SourceOps τ)
    (fuel pLen : Nat) (r : RState σ τ) (s : σ)
    (hs : r.state = some s) :
    r.close.err = none ∧
    r.close.r.state = none ∧
    countDestroy r.close.evs = 1 ∧
    (r.pinner = true → r.close.evs = [Event.destroy, Event.unpin]) ∧
    (r.pinner = false → r.close.evs = [Event.destroy]) ∧
    RState.read eng so fuel r.close.r pLen =
      some ⟨0, some GoErr.readerClosed, [], r.close.r, []⟩ ∧
    r.close.r.close = ⟨some GoErr.readerClosed, r.close.r, []⟩ := by
  have hc : r.close =
      ⟨none, { r with state := none, pinner := false },
       Event.destroy :: if r.pinner then [Event.unpin] else []⟩ := by
    unfold RState.close
    rw [hs]
  rw [hc]
  refine ⟨rfl, rfl, ?_, ?_, ?_, rfl, rfl⟩
  · cases hp : r.pinner <;> simp [countDestroy]
  · intro hp
    rw [hp]
    rfl
  · intro hp
    rw [hp]
    rfl

/-- Witness for C8 at a concrete open reader holding a dictionary
pin. -/
theorem claim_C8_witness :
    (⟨(), some (), 4, [2], true⟩ : RState Unit Unit).state = some () ∧
    ((⟨(), some (), 4, [2], true⟩ : RState Unit Unit).close.err = none ∧
     (⟨(), some (), 4, [2], true⟩ : RState Unit Unit).close.r.state = none ∧
     countDestroy
       (⟨(), some (), 4, [2], true⟩ : RState Unit Unit).close.evs = 1 ∧
     ((⟨(), some (), 4, [2], true⟩ : RState Unit Unit).pinner = true →
       (⟨(), some (), 4, [2], true⟩ : RState Unit Unit).close.evs =
         [Event.destroy, Event.unpin]) ∧
     ((⟨(), some (), 4, [2], true⟩ : RState Unit Unit).pinner = false →
       (⟨(), some (), 4, [2], true⟩ : RState Unit Unit).close.evs =
         [Event.destroy]) ∧
     RState.read finEng eofSrc 1
       (⟨(), some (), 4, [2], true⟩ : RState Unit Unit).close.r 3 =
       some ⟨0, some GoErr.readerClosed, [],
             (⟨(), some (), 4, [2], true⟩ : RState Unit Unit).close.r, []⟩ ∧
     (⟨(), some (), 4, [2], true⟩ : RState Unit Unit).close.r.close =
       ⟨some GoErr.readerClosed,
        (⟨(), some (), 4, [2], true⟩ : RState Unit Unit).close.r, []⟩) :=
  ⟨rfl, claim_C8 finEng eofSrc 1 3 ⟨(), some (), 4, [2], true⟩ () rfl⟩

/-- C9: The one-shot decode constructs a Reader whose Source always
reports end-of-data with zero bytes, whose pending input slice is preset
to the entire input buffer, drives Read in a loop concatenating output
(ReadAll), and on every exit path — success or failure — closes the
Reader exactly once (exactly one destruction event) before returning. -/
theorem claim_C9 {σ : Type} (eng : EngineOps σ) (s0 : σ)
    (fuel rfuel pLen : Nat) (encodedData : List Nat)
    (dict : Option (List Nat)) (a : AllRes σ Unit)
    (h : readAll eng eofSrc fuel rfuel pLen
        ⟨(), some (attachState eng s0 dict), 4, encodedData, dict.isSome⟩ =
        some a) :
    (∀ (u : Unit) (k : Nat), eofSrc.read u k = ⟨u, [], some GoErr.eof⟩) ∧
    DecodeWithRawDictionary eng s0 fuel rfuel pLen encodedData dict =
      some ⟨(match a.err with | some _ => none | none => some a.data),
            a.err, a.evs ++ a.r.close.evs⟩ ∧
    countDestroy (a.evs ++ a.r.close.evs) = 1 := by
  obtain ⟨d1, s2, hs2⟩ := readAll_inv eng eofSrc fuel rfuel pLen _ _ a rfl h
  have hc : a.r.close =
      ⟨none, { a.r with state := none, pinner := false },
       Event.destroy :: if a.r.pinner then [Event.unpin] else []⟩ := by
    unfold RState.close
    rw [hs2]
  refine ⟨fun u k => rfl, ?_, ?_⟩
  · unfold DecodeWithRawDictionary
    dsimp only
    rw [h]
    cases he : a.err <;> simp [he]
  · rw [countDestroy_append, d1, hc]
    cases hp : a.r.pinner <;> simp [countDestroy]

/-- Witness for C9: a complete successful one-shot decode run at a
concrete engine. -/
theorem claim_C9_witness :
    readAll trivEng eofSrc 2 1 4 ⟨(), some (), 4, [7], false⟩ =
      some ⟨[1, 2], none, ⟨(), some (), 4, [], false⟩,
            [Event.engineCall 2 1, Event.srcRead 0 (some GoErr.eof)]⟩ ∧
    DecodeWithRawDictionary trivEng () 2 1 4 [7] none =
      some ⟨some [1, 2], none,
            [Event.engineCall 2 1, Event.srcRead 0 (some GoErr.eof),
             Event.destroy]⟩ ∧
    countDestroy
      [Event.engineCall 2 1, Event.srcRead 0 (some GoErr.eof),
       Event.destroy] = 1 :=
  ⟨rfl,
   (claim_C9 trivEng () 2 1 4 [7] none
      ⟨[1, 2], none, ⟨(), some (), 4, [], false⟩,
       [Event.engineCall 2 1, Event.srcRead 0 (some GoErr.eof)]⟩ rfl).2.1,
   (claim_C9 trivEng () 2 1 4 [7] none
      ⟨[1, 2], none, ⟨(), some (), 4, [], false⟩,
       [Event.engineCall 2 1, Event.srcRead 0 (some GoErr.eof)]⟩ rfl).2.2⟩

/-- C10: Whenever the ReadAll drive of the one-shot decode ends in a
failure, Decode/DecodeWithRawDictionary returns a nil byte slice
together with that error, discarding whatever decoded prefix ReadAll had
already accumulated. -/
theorem claim_C10 {σ : Type} (eng : EngineOps σ) (s0 : σ)
    (fuel rfuel pLen : Nat) (encodedData : List Nat)
    (dict : Option (List Nat)) (data : List Nat) (e : GoErr)
    (r2 : RState σ Unit) (evs : List Event)
    (h : readAll eng eofSrc fuel rfuel pLen
        ⟨(), some (attachState eng s0 dict), 4, encodedData, dict.isSome⟩ =
        some ⟨data, some e, r2, evs⟩) :
    DecodeWithRawDictionary eng s0 fuel rfuel pLen encodedData dict =
      some ⟨none, some e, evs ++ r2.close.evs⟩ := by
  unfold DecodeWithRawDictionary
  dsimp only
  rw [h]
  rfl

/-- Witness for C10: a failing one-shot decode whose run had already
produced the non-empty decoded prefix [1, 2]; the Decode result is
nonetheless a nil slice. -/
theorem claim_C10_witness :
    readAll trailEng eofSrc 1 1 4 ⟨(), some (), 4, [7], false⟩ =
      some ⟨[1, 2], some GoErr.excessiveInput, ⟨(), some (), 4, [7], false⟩,
            [Event.engineCall 2 0]⟩ ∧
    ([1, 2] : List Nat) ≠ [] ∧
    DecodeWithRawDictionary trailEng () 1 1 4 [7] none =
      some ⟨none, some GoErr.excessiveInput,
            [Event.engineCall 2 0, Event.destroy]⟩ :=
  ⟨rfl, by decide,
   claim_C10 trailEng () 1 1 4 [7] none [1, 2] GoErr.excessiveInput
     ⟨(), some (), 4, [7], false⟩ [Event.engineCall 2 0] rfl⟩
